import Mathlib

/-!
# Verification of the Ouroboros code-generation core

Shallow embedding of the diffusion code-generation pipeline
(`src/diffusion/masking.py`, `src/diffusion/builder.py`,
`src/diffusion/diffusion_model.py`, `src/utils/semantic_analyzer.py`,
`src/utils/provenance_logger.py`) together with proofs and refutations of the
specification's claims about it.

Strings from the Python side are modelled as `List Char` where byte/character
splicing arithmetic matters (masking, unmasking), and as `String` where only
equality and concatenation matter (conditions, diagnostics).
-/

namespace Ouroboros

/-! ## The mask token

`ASTMasker.mask_token` defaults to the literal `"[MASK]"`; the Builder's
`_mask_target_functions` splices the same literal. -/

def maskTokenL : List Char := ['[', 'M', 'A', 'S', 'K', ']']

theorem maskTokenL_length : maskTokenL.length = 6 := rfl

/-! ## Occurrence counting and occurrence replacement

These two functions formalise the words of the masking-fidelity claim:
"the masked buffer contains exactly as many occurrences of the literal
`[MASK]` as there are returned Mask Spans" and "replacing each `[MASK]`
occurrence with the corresponding span's original_text".  `countOccs` counts
the positions at which the literal occurs; since `"[MASK]"` cannot overlap
itself (proved below), this agrees with the usual left-to-right
non-overlapping count.  `splitFirst` locates the first occurrence exactly as
Python's `str.find` does. -/

def countOccs : List Char → Nat
  | [] => 0
  | c :: rest => (if maskTokenL <+: (c :: rest) then 1 else 0) + countOccs rest

/-- Split a buffer around the first occurrence of the mask token, as
`str.find(mask_token)` followed by slicing does; `none` when absent. -/
def splitFirst : List Char → Option (List Char × List Char)
  | [] => none
  | c :: rest =>
    if maskTokenL <+: (c :: rest) then some ([], rest.drop 5)
    else
      match splitFirst rest with
      | none => none
      | some (pre, post) => some (c :: pre, post)

/-- Replace the k-th occurrence (left to right, non-overlapping) with the
k-th replacement text; text already substituted is not rescanned. -/
def replaceOccs (s : List Char) : List (List Char) → List Char
  | [] => s
  | r :: rs =>
    match splitFirst s with
    | none => s
    | some (pre, post) => pre ++ r ++ replaceOccs post rs

/-! ### The mask token cannot overlap itself -/

theorem maskTokenL_ne_nil : maskTokenL ≠ [] := by decide

theorem countOccs_pos_of_lead {s : List Char} (h : maskTokenL <+: s) :
    countOccs s ≠ 0 := by
  cases s with
  | nil => exact absurd (List.prefix_nil.mp h) maskTokenL_ne_nil
  | cons c rest => simp [countOccs, if_pos h]

theorem maskTokenL_no_border (j : Nat) (h1 : 1 ≤ j) (h5 : j ≤ 5) :
    maskTokenL.drop j ≠ maskTokenL.take (6 - j) := by
  interval_cases j <;> decide

/-- If `a` is free of mask-token occurrences and nonempty, the mask token is
not a prefix of `a ++ maskTokenL ++ b`: no occurrence can straddle the seam. -/
theorem not_prefix_mid {a b : List Char} (ha : countOccs a = 0) (hne : a ≠ []) :
    ¬ maskTokenL <+: (a ++ (maskTokenL ++ b)) := by
  intro h
  have htake : maskTokenL = (a ++ (maskTokenL ++ b)).take 6 := by
    have := List.prefix_iff_eq_take.mp h
    simpa [maskTokenL_length] using this
  by_cases hlen : 6 ≤ a.length
  · -- the whole occurrence sits inside `a`, contradicting `countOccs a = 0`
    have : maskTokenL = a.take 6 := by
      rw [htake, List.take_append_of_le_length hlen]
    have hpre : maskTokenL <+: a := this ▸ List.take_prefix 6 a
    exact countOccs_pos_of_lead hpre ha
  · push_neg at hlen
    have hj1 : 1 ≤ a.length := by
      cases a with
      | nil => exact absurd rfl hne
      | cons c t => simp
    have hj5 : a.length ≤ 5 := by omega
    -- the occurrence straddles the boundary of `a` and the inserted token
    have h66 : 6 - a.length - maskTokenL.length = 0 := by
      simp only [maskTokenL_length]; omega
    have hsplit : maskTokenL = a ++ maskTokenL.take (6 - a.length) := by
      conv_lhs => rw [htake]
      rw [List.take_append_eq_append_take, List.take_of_length_le (by omega : a.length ≤ 6),
        List.take_append_eq_append_take, h66]
      simp
    -- dropping `a.length` characters yields the no-border equation
    have hdrop : maskTokenL.drop a.length = maskTokenL.take (6 - a.length) := by
      conv_lhs => rw [hsplit]
      rw [List.drop_append_eq_append_drop]
      simp
    exact maskTokenL_no_border a.length hj1 hj5 hdrop

/-- No occurrence of the token starts strictly inside an inserted token:
every proper tail of `"[MASK]"` begins with a character other than `'['`. -/
theorem countOccs_maskToken_append (b : List Char) :
    countOccs (maskTokenL ++ b) = 1 + countOccs b := by
  have h0 : maskTokenL <+: ('[' :: 'M' :: 'A' :: 'S' :: 'K' :: ']' :: b) :=
    List.prefix_append maskTokenL b
  have h1 : ¬ maskTokenL <+: ('M' :: 'A' :: 'S' :: 'K' :: ']' :: b) := by
    intro h; exact absurd (List.cons_prefix_cons.mp h).1 (by decide)
  have h2 : ¬ maskTokenL <+: ('A' :: 'S' :: 'K' :: ']' :: b) := by
    intro h; exact absurd (List.cons_prefix_cons.mp h).1 (by decide)
  have h3 : ¬ maskTokenL <+: ('S' :: 'K' :: ']' :: b) := by
    intro h; exact absurd (List.cons_prefix_cons.mp h).1 (by decide)
  have h4 : ¬ maskTokenL <+: ('K' :: ']' :: b) := by
    intro h; exact absurd (List.cons_prefix_cons.mp h).1 (by decide)
  have h5 : ¬ maskTokenL <+: (']' :: b) := by
    intro h; exact absurd (List.cons_prefix_cons.mp h).1 (by decide)
  show countOccs ('[' :: 'M' :: 'A' :: 'S' :: 'K' :: ']' :: b) = 1 + countOccs b
  rw [countOccs, countOccs, countOccs, countOccs, countOccs, countOccs]
  rw [if_pos h0, if_neg h1, if_neg h2, if_neg h3, if_neg h4, if_neg h5]
  omega

theorem countOccs_cons_of_no_match {c : Char} {rest : List Char}
    (h : ¬ maskTokenL <+: (c :: rest)) :
    countOccs (c :: rest) = countOccs rest := by
  rw [countOccs, if_neg h, Nat.zero_add]

theorem countOccs_free_append {a : List Char} (ha : countOccs a = 0) (b : List Char) :
    countOccs (a ++ (maskTokenL ++ b)) = 1 + countOccs b := by
  induction a with
  | nil => simpa using countOccs_maskToken_append b
  | cons c t ih =>
    have hnp : ¬ maskTokenL <+: (c :: t) := by
      intro h; exact countOccs_pos_of_lead h ha
    have ht : countOccs t = 0 := by
      have := ha; rwa [countOccs_cons_of_no_match hnp] at this
    have hmid : ¬ maskTokenL <+: ((c :: t) ++ (maskTokenL ++ b)) :=
      not_prefix_mid ha (by simp)
    calc countOccs ((c :: t) ++ (maskTokenL ++ b))
        = countOccs (t ++ (maskTokenL ++ b)) := by
          simpa using countOccs_cons_of_no_match (by simpa using hmid)
      _ = 1 + countOccs b := ih ht

theorem splitFirst_free_append {a : List Char} (ha : countOccs a = 0) (b : List Char) :
    splitFirst (a ++ (maskTokenL ++ b)) = some (a, b) := by
  induction a with
  | nil =>
    have h0 : maskTokenL <+: ('[' :: 'M' :: 'A' :: 'S' :: 'K' :: ']' :: b) :=
      List.prefix_append maskTokenL b
    show splitFirst ('[' :: 'M' :: 'A' :: 'S' :: 'K' :: ']' :: b) = some ([], b)
    rw [splitFirst, if_pos h0]
    rfl
  | cons c t ih =>
    have hnp : ¬ maskTokenL <+: (c :: t) := by
      intro h; exact countOccs_pos_of_lead h ha
    have ht : countOccs t = 0 := by
      have := ha; rwa [countOccs_cons_of_no_match hnp] at this
    have hmid : ¬ maskTokenL <+: ((c :: t) ++ (maskTokenL ++ b)) :=
      not_prefix_mid ha (by simp)
    show splitFirst (c :: (t ++ (maskTokenL ++ b))) = some (c :: t, b)
    rw [splitFirst, if_neg (by simpa using hmid), ih ht]

theorem replaceOccs_free_append {a : List Char} (ha : countOccs a = 0)
    (b r : List Char) (rs : List (List Char)) :
    replaceOccs (a ++ (maskTokenL ++ b)) (r :: rs) = a ++ r ++ replaceOccs b rs := by
  rw [replaceOccs, splitFirst_free_append ha b]

/-! ## Tree-sitter nodes and mask spans

A `TSNode` abstracts the parser's output for one matched construct: its byte
range, points and categories.  The parse itself (tree-sitter) is an external
library; the facts we assume about its output — matched top-level nodes are
pairwise disjoint, nonempty and lie inside the buffer — appear as hypotheses
of the theorems. -/

structure TSNode where
  start_byte : Nat
  end_byte : Nat
  start_row : Nat := 0
  start_col : Nat := 0
  end_row : Nat := 0
  end_col : Nat := 0
  node_type : String := ""
  parent_type : Option String := none
  deriving Repr, DecidableEq

/-- Model of `masking.MaskedSpan`, with `original_text` as a character list. -/
structure MaskedSpan where
  start_byte : Nat
  end_byte : Nat
  start_line : Nat := 0
  end_line : Nat := 0
  start_col : Nat := 0
  end_col : Nat := 0
  node_type : String := ""
  original_text : List Char := []
  mask_token : List Char := maskTokenL
  parent_type : Option String := none
  metadata : List (String × Nat) := []
  deriving Repr, DecidableEq

/-- Model of `ASTMasker._create_masked_span`: captures the byte range, points,
category and original substring of the node. -/
def createMaskedSpan (node : TSNode) (source_code : List Char) : MaskedSpan :=
  { start_byte := node.start_byte
    end_byte := node.end_byte
    start_line := node.start_row
    end_line := node.end_row
    start_col := node.start_col
    end_col := node.end_col
    node_type := node.node_type
    original_text := (source_code.take node.end_byte).drop node.start_byte
    mask_token := maskTokenL
    parent_type := node.parent_type }

/-- Descending start-byte comparison used by
`target_nodes.sort(key=lambda n: n.start_byte, reverse=True)`. -/
def nodeGE (a b : TSNode) : Prop := b.start_byte ≤ a.start_byte

instance : DecidableRel nodeGE := fun a b => Nat.decLe _ _

instance : IsTotal TSNode nodeGE := ⟨fun a b => Nat.le_total b.start_byte a.start_byte⟩

instance : IsTrans TSNode nodeGE := ⟨fun _ _ _ hab hbc => Nat.le_trans hbc hab⟩

/-- One iteration of the masking loop in `Builder._mask_target_functions`:
`masked_code = masked_code[:start] + "[MASK]" + masked_code[end:]`, and the
span (built from the original `code`) is appended. -/
def maskStep (code : List Char) (acc : List Char × List MaskedSpan) (node : TSNode) :
    List Char × List MaskedSpan :=
  (acc.1.take node.start_byte ++ maskTokenL ++ acc.1.drop node.end_byte,
   acc.2 ++ [createMaskedSpan node code])

/-- Model of `Builder._mask_target_functions`, from the point where the matched nodes
are known: return unchanged on no match, else sort by descending start byte
and splice the mask token over each node. -/
def maskTargetFunctions (code : List Char) (found : List TSNode) :
    List Char × List MaskedSpan :=
  if found.isEmpty then (code, [])
  else
    let target_nodes := List.insertionSort nodeGE found
    target_nodes.foldl (maskStep code) (code, [])

/-! ### Segment decomposition of the masked buffer -/

/-- ascending chain of node ranges: each node starts at or after `pos`, is
well-formed, ends inside the buffer, and the rest chains from its end. -/
def NChain (n : Nat) : Nat → List TSNode → Prop
  | _, [] => True
  | pos, node :: rest =>
    pos ≤ node.start_byte ∧ node.start_byte ≤ node.end_byte ∧ node.end_byte ≤ n ∧
      NChain n node.end_byte rest

instance instDecidableNChain (n : Nat) : (pos : Nat) → (l : List TSNode) →
    Decidable (NChain n pos l)
  | _, [] => isTrue trivial
  | pos, node :: rest =>
    have : Decidable (NChain n node.end_byte rest) := instDecidableNChain n node.end_byte rest
    inferInstanceAs (Decidable (_ ∧ _ ∧ _ ∧ _))

/-- The masked buffer for an ascending chain: alternating inter-node segments
and mask tokens. -/
def interSegs (code : List Char) (pos : Nat) : List TSNode → List Char
  | [] => code.drop pos
  | node :: rest =>
    ((code.take node.start_byte).drop pos) ++ maskTokenL ++ interSegs code node.end_byte rest

/-- The source text outside the node ranges is free of mask-token
occurrences. -/
def SegsFree (code : List Char) : Nat → List TSNode → Prop
  | pos, [] => countOccs (code.drop pos) = 0
  | pos, node :: rest =>
    countOccs ((code.take node.start_byte).drop pos) = 0 ∧ SegsFree code node.end_byte rest

instance instDecidableSegsFree (code : List Char) : (pos : Nat) → (l : List TSNode) →
    Decidable (SegsFree code pos l)
  | _, [] => by unfold SegsFree; infer_instance
  | pos, node :: rest =>
    have : Decidable (SegsFree code node.end_byte rest) :=
      instDecidableSegsFree code node.end_byte rest
    inferInstanceAs (Decidable (_ ∧ _))

theorem nchain_mono {n : Nat} {l : List TSNode} {pos pos' : Nat}
    (hle : pos' ≤ pos) (h : NChain n pos l) : NChain n pos' l := by
  cases l with
  | nil => trivial
  | cons node rest => exact ⟨Nat.le_trans hle h.1, h.2.1, h.2.2.1, h.2.2.2⟩

theorem interSegs_take {code : List Char} {rest : List TSNode} {e s : Nat}
    (h : NChain code.length e rest) (hs : s ≤ e) (hn : e ≤ code.length) :
    (interSegs code 0 rest).take s = code.take s := by
  cases rest with
  | nil => simp [interSegs]
  | cons node rest' =>
    obtain ⟨h1, h2, h3, _⟩ := h
    simp only [interSegs, List.drop_zero, List.append_assoc]
    rw [List.take_append_eq_append_take, List.take_take,
      Nat.min_eq_left (by omega : s ≤ node.start_byte)]
    have hz : s - node.start_byte ⊓ code.length = 0 := by omega
    simp [hz]

theorem interSegs_drop {code : List Char} {rest : List TSNode} {e : Nat}
    (h : NChain code.length e rest) (hn : e ≤ code.length) :
    (interSegs code 0 rest).drop e = interSegs code e rest := by
  cases rest with
  | nil => simp [interSegs]
  | cons node rest' =>
    obtain ⟨h1, h2, h3, _⟩ := h
    simp only [interSegs, List.drop_zero, List.append_assoc]
    rw [List.drop_append_eq_append_drop]
    have hz : e - node.start_byte ⊓ code.length = 0 := by omega
    simp [hz]

/-- The masking loop of `_mask_target_functions`, run over the
descending-sorted nodes, produces exactly the alternating segment/token
decomposition. -/
theorem foldr_mask_eq_interSegs (code : List Char) :
    ∀ (asc : List TSNode), NChain code.length 0 asc →
    asc.foldr (fun node m => m.take node.start_byte ++ maskTokenL ++ m.drop node.end_byte)
      code = interSegs code 0 asc := by
  intro asc
  induction asc with
  | nil => intro _; simp [interSegs]
  | cons node rest ih =>
    intro h
    obtain ⟨_, h2, h3, h4⟩ := h
    have hrest0 : NChain code.length 0 rest := nchain_mono (Nat.zero_le _) h4
    simp only [List.foldr_cons, ih hrest0]
    rw [interSegs_take h4 h2 h3, interSegs_drop h4 h3]
    simp [interSegs]

theorem countOccs_interSegs (code : List Char) :
    ∀ (asc : List TSNode) (pos : Nat), SegsFree code pos asc →
    countOccs (interSegs code pos asc) = asc.length := by
  intro asc
  induction asc with
  | nil => intro pos h; simpa [interSegs] using h
  | cons node rest ih =>
    intro pos h
    obtain ⟨h1, h2⟩ := h
    simp only [interSegs, List.append_assoc]
    rw [countOccs_free_append h1, ih _ h2]
    simp [Nat.add_comm]

theorem splice_drop {code : List Char} {pos s e : Nat}
    (hps : pos ≤ s) (hse : s ≤ e) (hn : e ≤ code.length) :
    (code.take s).drop pos ++ ((code.take e).drop s ++ code.drop e) = code.drop pos := by
  have h1 : code.drop pos = (code.take s).drop pos ++ code.drop s := by
    conv_lhs => rw [← List.take_append_drop s code]
    rw [List.drop_append_eq_append_drop]
    have hz : pos - s ⊓ code.length = 0 := by omega
    simp [hz]
  have h2 : code.drop s = (code.take e).drop s ++ code.drop e := by
    conv_lhs => rw [← List.take_append_drop e code]
    rw [List.drop_append_eq_append_drop]
    have hz : s - e ⊓ code.length = 0 := by omega
    simp [hz]
  rw [h1, h2]

theorem replaceOccs_interSegs (code : List Char) :
    ∀ (asc : List TSNode) (pos : Nat), SegsFree code pos asc →
    NChain code.length pos asc →
    replaceOccs (interSegs code pos asc)
      (asc.map fun nd => (code.take nd.end_byte).drop nd.start_byte) = code.drop pos := by
  intro asc
  induction asc with
  | nil => intro pos _ _; simp [interSegs, replaceOccs]
  | cons node rest ih =>
    intro pos hf hc
    obtain ⟨hf1, hf2⟩ := hf
    obtain ⟨hc1, hc2, hc3, hc4⟩ := hc
    simp only [interSegs, List.append_assoc, List.map_cons]
    rw [replaceOccs_free_append hf1, ih _ hf2 hc4, List.append_assoc]
    exact splice_drop hc1 hc2 hc3

/-! ### From the parser's facts to the chain shape

Matched top-level nodes of a syntax tree are pairwise disjoint (the search in
`find_named_nodes` does not recurse into a matched node) and nonempty; after
the descending sort, the reversed list is an ascending chain. -/

/-- Two nodes occupy disjoint half-open byte ranges. -/
def Sep (a b : TSNode) : Prop :=
  a.end_byte ≤ b.start_byte ∨ b.end_byte ≤ a.start_byte

theorem sep_symm : Symmetric Sep := fun _ _ h => h.symm

instance : DecidableRel Sep := fun _ _ => inferInstanceAs (Decidable (_ ∨ _))

theorem nchain_of_sorted {n : Nat} :
    ∀ (l : List TSNode) (pos : Nat),
    l.Pairwise (fun a b => a.start_byte ≤ b.start_byte) →
    l.Pairwise Sep →
    (∀ nd ∈ l, nd.start_byte < nd.end_byte ∧ nd.end_byte ≤ n) →
    (∀ nd ∈ l, pos ≤ nd.start_byte) →
    NChain n pos l := by
  intro l
  induction l with
  | nil => intro pos _ _ _ _; trivial
  | cons node rest ih =>
    intro pos hsort hsep hwf hpos
    obtain ⟨hs1, hs2⟩ := List.pairwise_cons.mp hsort
    obtain ⟨hp1, hp2⟩ := List.pairwise_cons.mp hsep
    have hnode := hwf node (List.mem_cons_self node rest)
    refine ⟨hpos node (List.mem_cons_self node rest), Nat.le_of_lt hnode.1, hnode.2, ?_⟩
    refine ih node.end_byte hs2 hp2 (fun nd h => hwf nd (List.mem_cons_of_mem _ h)) ?_
    intro nd hnd
    rcases hp1 nd hnd with h | h
    · exact h
    · -- the other node would end before this one starts, contradicting
      -- the ascending start order and nonemptiness
      have h1 := hs1 nd hnd
      have h2 := (hwf nd (List.mem_cons_of_mem _ hnd)).1
      omega

/-- Splitting the masking fold into the buffer part and the span part. -/
theorem foldl_maskStep_split (code : List Char) :
    ∀ (nodes : List TSNode) (m0 : List Char) (sp0 : List MaskedSpan),
    nodes.foldl (maskStep code) (m0, sp0) =
      (nodes.foldl
        (fun m node => m.take node.start_byte ++ maskTokenL ++ m.drop node.end_byte) m0,
       sp0 ++ nodes.map (fun nd => createMaskedSpan nd code)) := by
  intro nodes
  induction nodes with
  | nil => intro m0 sp0; simp
  | cons node rest ih =>
    intro m0 sp0
    simp only [List.foldl_cons, List.map_cons, maskStep, ih]
    simp

/-- C1 structural core: on a buffer whose matched nodes are pairwise
disjoint, nonempty and in bounds, `_mask_target_functions` produces the
alternating decomposition, with spans listed in descending start order. -/
theorem maskTargetFunctions_eq (code : List Char) (found : List TSNode)
    (hne : found ≠ [])
    (hwf : ∀ nd ∈ found, nd.start_byte < nd.end_byte ∧ nd.end_byte ≤ code.length)
    (hsep : found.Pairwise Sep) :
    maskTargetFunctions code found =
      (interSegs code 0 (List.insertionSort nodeGE found).reverse,
       (List.insertionSort nodeGE found).map (fun nd => createMaskedSpan nd code)) ∧
    NChain code.length 0 (List.insertionSort nodeGE found).reverse := by
  set sorted := List.insertionSort nodeGE found with hsorted
  have hperm : List.Perm sorted found := List.perm_insertionSort nodeGE found
  have hchain : NChain code.length 0 sorted.reverse := by
    refine nchain_of_sorted _ 0 ?_ ?_ ?_ ?_
    · have hdesc : sorted.Pairwise nodeGE := List.sorted_insertionSort nodeGE found
      have := List.pairwise_reverse.mpr hdesc
      exact this.imp fun h => h
    · exact (List.pairwise_reverse.mpr
        ((hperm.pairwise_iff fun h => Or.symm h).mpr hsep)).imp fun h => Or.symm h
    · intro nd hnd
      exact hwf nd (hperm.mem_iff.mp (List.mem_reverse.mp hnd))
    · intro nd _
      exact Nat.zero_le _
  refine ⟨?_, hchain⟩
  have hnem : ¬ found.isEmpty := by
    cases found with
    | nil => exact absurd rfl hne
    | cons a l => simp
  unfold maskTargetFunctions
  rw [if_neg hnem]
  rw [foldl_maskStep_split]
  have hfold :
      sorted.foldl
        (fun m node => m.take node.start_byte ++ maskTokenL ++ m.drop node.end_byte) code
        = interSegs code 0 sorted.reverse := by
    conv_lhs => rw [← List.reverse_reverse sorted]
    rw [List.foldl_reverse]
    exact foldr_mask_eq_interSegs code sorted.reverse hchain
  rw [hfold]
  simp

/-- C1 counterexample input: a source that itself contains the literal
`"[MASK]"` ahead of the single matched construct. -/
def c1CounterCode : List Char := maskTokenL ++ ['a', 'b', 'c']

def c1CounterNode : TSNode :=
  { start_byte := 6, end_byte := 9, node_type := "function_definition" }

/-- C1 (counterexample): with source `"[MASK]abc"` and one matched node
covering `"abc"`, the masked buffer holds two occurrences of the literal but
only one span is returned, and occurrence-wise replacement does not restore
the source.  The claim's parenthetical — that the token/span correspondence
holds "including for sources that themselves contain the literal [MASK]
outside the matched spans" — is therefore false. -/
theorem c1_counterexample :
    ¬ (countOccs (maskTargetFunctions c1CounterCode [c1CounterNode]).1
        = (maskTargetFunctions c1CounterCode [c1CounterNode]).2.length ∧
       replaceOccs (maskTargetFunctions c1CounterCode [c1CounterNode]).1
        (((maskTargetFunctions c1CounterCode [c1CounterNode]).2.reverse).map
          MaskedSpan.original_text) = c1CounterCode) := by
  decide

/-- C1 (amended): masking fidelity holds for every source whose text outside
the matched spans is free of the literal `"[MASK]"`: the masked buffer then
contains exactly as many occurrences of the literal as returned spans, and
replacing the k-th occurrence with the k-th span's `original_text`, spans
taken in ascending start-byte order (the returned list is descending, so its
reverse), restores the source byte-for-byte. -/
theorem c1_masking_fidelity (code : List Char) (found : List TSNode)
    (hne : found ≠ [])
    (hwf : ∀ nd ∈ found, nd.start_byte < nd.end_byte ∧ nd.end_byte ≤ code.length)
    (hsep : found.Pairwise Sep)
    (hfree : SegsFree code 0 (List.insertionSort nodeGE found).reverse) :
    countOccs (maskTargetFunctions code found).1
      = (maskTargetFunctions code found).2.length ∧
    replaceOccs (maskTargetFunctions code found).1
      (((maskTargetFunctions code found).2.reverse).map MaskedSpan.original_text)
      = code := by
  obtain ⟨heq, hchain⟩ := maskTargetFunctions_eq code found hne hwf hsep
  rw [heq]
  set asc := (List.insertionSort nodeGE found).reverse with hasc
  constructor
  · rw [countOccs_interSegs code asc 0 hfree]
    simp [asc]
  · have hmap :
        (((List.insertionSort nodeGE found).map
          (fun nd => createMaskedSpan nd code)).reverse).map MaskedSpan.original_text
        = asc.map fun nd => (code.take nd.end_byte).drop nd.start_byte := by
      rw [← List.map_reverse, List.map_map]
      rfl
    rw [hmap]
    simpa using replaceOccs_interSegs code asc 0 hfree hchain

def c1WitnessCode : List Char := ['x', 'a', 'y', 'b', 'z']

def c1WitnessNodes : List TSNode :=
  [{ start_byte := 1, end_byte := 2, node_type := "function_definition" },
   { start_byte := 3, end_byte := 4, node_type := "class_definition" }]

/-- Witness for the amended masking-fidelity theorem at a concrete input. -/
theorem c1_masking_fidelity_witness :
    (c1WitnessNodes ≠ [] ∧
     (∀ nd ∈ c1WitnessNodes,
        nd.start_byte < nd.end_byte ∧ nd.end_byte ≤ c1WitnessCode.length) ∧
     c1WitnessNodes.Pairwise Sep ∧
     SegsFree c1WitnessCode 0 (List.insertionSort nodeGE c1WitnessNodes).reverse) ∧
    (countOccs (maskTargetFunctions c1WitnessCode c1WitnessNodes).1
      = (maskTargetFunctions c1WitnessCode c1WitnessNodes).2.length ∧
    replaceOccs (maskTargetFunctions c1WitnessCode c1WitnessNodes).1
      (((maskTargetFunctions c1WitnessCode c1WitnessNodes).2.reverse).map
        MaskedSpan.original_text) = c1WitnessCode) :=
  ⟨⟨by decide, by decide, by decide, by decide⟩,
   c1_masking_fidelity c1WitnessCode c1WitnessNodes (by decide) (by decide)
     (by decide) (by decide)⟩

/-! ## `ASTMasker.unmask` -/

/-- Model of `ASTMasker.unmask`: raise on a span/prediction length mismatch, then for
each `(span, prediction)` pair, iterated in reversed zip order, find the
first `"[MASK]"` occurrence in the current buffer and splice the prediction
over it (skipping the pair when no occurrence remains). -/
def unmask (masked_code : List Char) (spans : List MaskedSpan)
    (predictions : List (List Char)) : Except String (List Char) :=
  if spans.length ≠ predictions.length then
    Except.error "Mismatch between spans and predictions"
  else
    Except.ok (((spans.zip predictions).reverse).foldl
      (fun unmasked sp =>
        match splitFirst unmasked with
        | none => unmasked
        | some (pre, post) => pre ++ sp.2 ++ post) masked_code)

def c2Masked : List Char := ['A'] ++ maskTokenL ++ ['B'] ++ maskTokenL ++ ['C']

def c2Spans : List MaskedSpan :=
  [{ start_byte := 1, end_byte := 2, node_type := "function_definition",
     original_text := ['a'] },
   { start_byte := 3, end_byte := 4, node_type := "function_definition",
     original_text := ['b'] }]

/-- C2: evaluating `unmask` on the masked buffer `"A[MASK]B[MASK]C"` with two
spans in ascending start order and predictions `["p1", "p2"]` in the same
order yields `"Ap2Bp1C"`: the first occurrence receives the *last*
prediction, not the first as the claim (and the function's own
documentation) states. -/
theorem c2_unmask_reverses_predictions :
    unmask c2Masked c2Spans [['p', '1'], ['p', '2']]
      = Except.ok ['A', 'p', '2', 'B', 'p', '1', 'C'] ∧
    ['A', 'p', '2', 'B', 'p', '1', 'C'] ≠ ['A', 'p', '1', 'B', 'p', '2', 'C'] :=
  ⟨rfl, by decide⟩

/-- C9: `unmask` returns an error exactly when the number of spans differs
from the number of predictions, and a string result exactly when they
agree. -/
theorem c9_unmask_length_precondition (masked : List Char) (spans : List MaskedSpan)
    (preds : List (List Char)) :
    ((∃ e, unmask masked spans preds = Except.error e) ↔ spans.length ≠ preds.length) ∧
    ((∃ s, unmask masked spans preds = Except.ok s) ↔ spans.length = preds.length) := by
  unfold unmask
  by_cases h : spans.length = preds.length
  · simp [h]
  · simp [h]

/-! ## The Builder orchestrator

`Builder.generate_patch` / `generate_batch` and the pieces they read.  The
remote backbone, the tree-sitter validator, the semantic analyzer, the
filesystem and `difflib.unified_diff` are external effects; they are
abstracted as oracle functions collected in `Env`.  One call of
`model.generate` (or of the fallback's single-shot completion) counts as one
backbone generation; the oracle maps the index of the generation to the
sample it yields. -/

/-- Model of `diffusion_model.DiffusionSample`, reduced to the fields the
orchestrator reads. -/
structure Sample where
  generated_code : String
  is_valid_syntax : Bool := true
  validation_errors : List String := []
  deriving Repr, DecidableEq

/-- Model of `syntax_validator.SyntaxError`, reduced. -/
structure SynErr where
  line : Nat
  column : Nat := 0
  message : String
  node_type : String := ""
  deriving Repr, DecidableEq

/-- Model of `syntax_validator.ValidationResult`, reduced. -/
structure ValidationResult where
  is_valid : Bool
  errors : List SynErr := []
  has_error_nodes : Bool := false
  deriving Repr, DecidableEq

/-- Model of `ValidationResult.error_summary`. -/
def ValidationResult.error_summary (r : ValidationResult) : String :=
  if r.is_valid then "No syntax errors"
  else
    String.intercalate "; "
      ((if r.has_error_nodes then [toString r.errors.length ++ " syntax errors"] else []) ++
       (match r.errors with
        | [] => []
        | e :: _ => ["First error at line " ++ toString e.line ++ ": " ++ e.message]))

/-- Model of `semantic_analyzer.IssueSeverity`. -/
inductive IssueSeverity where
  | error
  | warning
  | info
  deriving Repr, DecidableEq

/-- Model of `semantic_analyzer.SemanticIssue`. -/
structure SemanticIssue where
  line : Nat
  column : Nat
  message : String
  severity : IssueSeverity
  rule : String := ""
  code : String := ""
  deriving Repr, DecidableEq

/-- Model of `semantic_analyzer.SemanticResult`, reduced to the fields read here. -/
structure SemanticResult where
  is_valid : Bool
  errors : List SemanticIssue := []
  warnings : List SemanticIssue := []
  checker_used : String := "none"
  deriving Repr, DecidableEq

/-- Model of `SemanticResult.error_summary`. -/
def SemanticResult.error_summary (r : SemanticResult) : String :=
  if r.is_valid then "No semantic errors"
  else
    String.intercalate "; "
      ((match r.errors with
        | [] => []
        | e :: _ =>
          [toString r.errors.length ++ " semantic error(s)",
           "Line " ++ toString e.line ++ ": " ++ e.message]) ++
       (if r.warnings.isEmpty then [] else [toString r.warnings.length ++ " warning(s)"]))

/-- Model of `builder.RefactorPlan` (the `context` dict is not read by the paths
modelled here). -/
structure RefactorPlan where
  file_path : String
  edit_targets : List String
  intent : String
  condition : String
  language : String := "python"
  priority : Int := 1
  deriving Repr, DecidableEq

/-- Model of `builder.GeneratedPatch`, reduced to the fields the claims read. -/
structure GeneratedPatch where
  file_path : String
  original_code : String
  generated_code : String
  unified_diff : String
  masked_spans : List MaskedSpan
  is_valid_syntax : Bool
  validation_errors : List String
  deriving Repr, DecidableEq

/-- Model of `GeneratedPatch.can_apply`. -/
def GeneratedPatch.can_apply (p : GeneratedPatch) : Bool :=
  GeneratedPatch.is_valid_syntax p && p.validation_errors.length == 0

/-- External effects consumed by the Builder, as deterministic oracles. -/
structure Env where
  /-- one backbone generation per index -/
  backbone : Nat → Sample
  /-- Model of `SyntaxValidator.validate` on a candidate source -/
  syn : String → ValidationResult
  /-- Model of `SemanticAnalyzer.analyze` on a candidate source -/
  sem : String → SemanticResult
  /-- Model of `difflib.unified_diff`-based `_create_unified_diff` -/
  mkDiff : String → String → String
  /-- Model of `Path.read_text`; `none` models a missing file -/
  readFile : String → Option String
  /-- Model of `_mask_target_functions` outcome for `(code, target_names, language)` -/
  maskf : String → List String → String → String × List MaskedSpan

/-- Model of `DiscreteDiffusionModel.generate_with_fallback`: up to
`max_validation_attempts` denoising generations, each accepted as soon as its
own syntax flag is set; when all fail, one autoregressive-fallback
generation whose sample is returned regardless.  The `Nat` result is the
next free generation index. -/
def genWithFallback (backbone : Nat → Sample) : Nat → Nat → Sample × Nat
  | 0, k => (backbone k, k + 1)
  | n + 1, k =>
    let s := backbone k
    if Sample.is_valid_syntax s then (s, k + 1)
    else genWithFallback backbone n (k + 1)

/-- Diagnostic suffix appended to the condition after a syntactic
rejection. -/
def syntaxRetrySuffix (summary : String) : String :=
  "\n\nIMPORTANT: Previous attempt had syntax errors. Fix these issues: " ++ summary

/-- Diagnostic suffix appended to the condition after a semantic
rejection. -/
def semanticRetrySuffix (summary : String) : String :=
  "\n\nIMPORTANT: Previous attempt had semantic errors. Fix these issues: " ++ summary

/-- State left by the `while retry_count <= max_retries` loop of
`Builder.generate_patch`. -/
structure LoopResult where
  sample : Sample
  last_validation : Option ValidationResult
  retry_count : Nat
  condition : String
  calls : Nat
  deriving Repr, DecidableEq

/-- The retry loop of `Builder.generate_patch`.  `fuel` is a termination
device: the Python loop re-enters only after incrementing `retry_count` and
checking it against `max_retries`, so with `fuel = maxRetries + 1` the
zero-fuel branch is unreachable.  `condition` carries `plan.condition`,
which the loop overwrites in place on each retried failure. -/
def runLoop (env : Env) (gate useFallback : Bool) (maxRetries maxAttempts : Nat) :
    Nat → Nat → String → Nat → LoopResult
  | 0, rc, cond, calls =>
    { sample := { generated_code := "", is_valid_syntax := false },
      last_validation := none, retry_count := rc, condition := cond, calls := calls }
  | fuel + 1, rc, cond, calls =>
    let gen : Sample × Nat :=
      if useFallback then genWithFallback env.backbone maxAttempts calls
      else (env.backbone calls, calls + 1)
    let sample := gen.1
    let calls' := gen.2
    if gate then
      let v := env.syn sample.generated_code
      if v.is_valid = false then
        let rc' := rc + 1
        if rc' ≤ maxRetries then
          runLoop env gate useFallback maxRetries maxAttempts fuel rc'
            (cond ++ syntaxRetrySuffix v.error_summary) calls'
        else
          { sample := sample, last_validation := some v, retry_count := rc',
            condition := cond, calls := calls' }
      else
        let sr := env.sem sample.generated_code
        if sr.is_valid = false then
          let rc' := rc + 1
          if rc' ≤ maxRetries then
            runLoop env gate useFallback maxRetries maxAttempts fuel rc'
              (cond ++ semanticRetrySuffix sr.error_summary) calls'
          else
            { sample := sample, last_validation := some v, retry_count := rc',
              condition := cond, calls := calls' }
        else
          { sample := sample, last_validation := some v, retry_count := rc,
            condition := cond, calls := calls' }
    else
      { sample := sample, last_validation := none, retry_count := rc,
        condition := cond, calls := calls' }

/-- Formatting `f"Line {e.line}: {e.message}"` applied to the final syntax
errors in `generate_patch`. -/
def fmtSynErr (e : SynErr) : String :=
  "Line " ++ toString e.line ++ ": " ++ e.message

/-- The update `diffusion_sample.is_valid_syntax = ...;
diffusion_sample.validation_errors = ...` performed after the loop when the
safety gate is enabled and a validation result exists. -/
def sampleAfter (gate : Bool) (r : LoopResult) : Sample :=
  match r.last_validation, gate with
  | some v, true =>
    { r.sample with
        is_valid_syntax := v.is_valid,
        validation_errors := v.errors.map fmtSynErr }
  | _, _ => r.sample

/-- Model of `Builder.generate_patch`.  The in-place mutation of `plan.condition` is
modelled by returning the plan object as it stands on return; the final
`Nat` is the number of backbone generations performed. -/
def generatePatch (env : Env) (gate useFallback : Bool) (maxRetries maxAttempts : Nat)
    (plan : RefactorPlan) : Except String (GeneratedPatch × RefactorPlan × Nat) :=
  match env.readFile plan.file_path with
  | none => Except.error ("File not found: " ++ plan.file_path)
  | some original_code =>
    if plan.edit_targets.isEmpty then
      Except.error "RefactorPlan must have at least one edit target"
    else
      let mres := env.maskf original_code plan.edit_targets plan.language
      if mres.2.isEmpty then
        Except.error ("Could not find any of " ++ toString plan.edit_targets ++
          " in " ++ plan.file_path)
      else
        let r := runLoop env gate useFallback maxRetries maxAttempts
          (maxRetries + 1) 0 plan.condition 0
        let sample := sampleAfter gate r
        Except.ok
          ({ file_path := plan.file_path
             original_code := original_code
             generated_code := sample.generated_code
             unified_diff := env.mkDiff original_code sample.generated_code
             masked_spans := mres.2
             is_valid_syntax := Sample.is_valid_syntax sample
             validation_errors := sample.validation_errors },
           { plan with condition := r.condition },
           r.calls)

/-- Model of `Builder._create_error_patch`. -/
def createErrorPatch (plan : RefactorPlan) (error : String) : GeneratedPatch :=
  { file_path := plan.file_path, original_code := "", generated_code := "",
    unified_diff := "", masked_spans := [], is_valid_syntax := false,
    validation_errors := [error] }

/-- Descending-priority comparison used by
`sorted(plans, key=lambda p: p.priority, reverse=True)`. -/
def planGE (a b : RefactorPlan) : Prop := b.priority ≤ a.priority

instance : DecidableRel planGE := fun _ _ => Int.decLe _ _

instance : IsTotal RefactorPlan planGE := ⟨fun a b => Int.le_total b.priority a.priority⟩

instance : IsTrans RefactorPlan planGE := ⟨fun _ _ _ h1 h2 => le_trans h2 h1⟩

/-- Model of `Builder.generate_batch`: sort the plans by descending priority, process
sequentially, converting each raised exception into an error patch; the
patches are accumulated — and returned — in this processing order. -/
def generateBatch (env : Env) (gate useFallback : Bool) (maxRetries maxAttempts : Nat)
    (plans : List RefactorPlan) : List GeneratedPatch :=
  (List.insertionSort planGE plans).map fun plan =>
    match generatePatch env gate useFallback maxRetries maxAttempts plan with
    | Except.ok (patch, _, _) => patch
    | Except.error e => createErrorPatch plan e

/-! ### Loop facts -/

theorem genWithFallback_calls_le (backbone : Nat → Sample) :
    ∀ (n k : Nat), (genWithFallback backbone n k).2 ≤ k + n + 1 := by
  intro n
  induction n with
  | zero => intro k; simp [genWithFallback]
  | succ n ih =>
    intro k
    simp only [genWithFallback]
    split
    · dsimp only; omega
    · have := ih (k + 1)
      omega

theorem genWithFallback_calls_pos (backbone : Nat → Sample) :
    ∀ (n k : Nat), k + 1 ≤ (genWithFallback backbone n k).2 := by
  intro n
  induction n with
  | zero => intro k; simp [genWithFallback]
  | succ n ih =>
    intro k
    simp only [genWithFallback]
    split
    · dsimp only; omega
    · have := ih (k + 1)
      omega

/-- Each loop iteration performs exactly one backbone generation when the
fallback path is disabled. -/
theorem runLoop_calls_nofallback (env : Env) (gate : Bool) (mr mAtt : Nat) :
    ∀ (fuel rc : Nat) (cond : String) (calls : Nat),
    (runLoop env gate false mr mAtt fuel rc cond calls).calls ≤ calls + fuel := by
  intro fuel
  induction fuel with
  | zero => intro rc cond calls; simp [runLoop]
  | succ fuel ih =>
    intro rc cond calls
    simp only [runLoop, Bool.false_eq_true, if_false]
    split
    · split
      · split
        · exact Nat.le_trans (ih _ _ _) (by omega)
        · dsimp only; omega
      · split
        · split
          · exact Nat.le_trans (ih _ _ _) (by omega)
          · dsimp only; omega
        · dsimp only; omega
    · dsimp only; omega

/-- With the fallback enabled, each loop iteration performs at most
`maxAttempts + 1` backbone generations. -/
theorem runLoop_calls_fallback (env : Env) (gate : Bool) (mr mAtt : Nat) :
    ∀ (fuel rc : Nat) (cond : String) (calls : Nat),
    (runLoop env gate true mr mAtt fuel rc cond calls).calls ≤
      calls + fuel * (mAtt + 1) := by
  intro fuel
  induction fuel with
  | zero => intro rc cond calls; simp [runLoop]
  | succ fuel ih =>
    intro rc cond calls
    have hgen := genWithFallback_calls_le env.backbone mAtt calls
    have hmul : (fuel + 1) * (mAtt + 1) = fuel * (mAtt + 1) + (mAtt + 1) := by ring
    simp only [runLoop, if_true]
    split
    · split
      · split
        · exact Nat.le_trans (ih _ _ _) (by omega)
        · dsimp only; omega
      · split
        · split
          · exact Nat.le_trans (ih _ _ _) (by omega)
          · dsimp only; omega
        · dsimp only; omega
    · dsimp only; omega

/-- A retry bound of `0` means single-shot: exactly one generation is
performed when the fallback path is disabled. -/
theorem runLoop_calls_singleshot (env : Env) (gate : Bool) (mAtt : Nat)
    (rc : Nat) (cond : String) (calls : Nat) :
    (runLoop env gate false 0 mAtt 1 rc cond calls).calls = calls + 1 := by
  simp only [runLoop, Bool.false_eq_true, if_false]
  split
  · split
    · split
      · omega
      · rfl
    · split
      · split
        · omega
        · rfl
      · rfl
  · rfl

theorem cond_extend {x cond s : String} (h : ∃ t, x = (cond ++ s) ++ t) :
    ∃ t, x = cond ++ t := by
  obtain ⟨t, ht⟩ := h
  exact ⟨s ++ t, by rw [ht, String.append_assoc]⟩

/-- The condition is only ever extended: the final condition carries the
original one as a prefix. -/
theorem runLoop_condition_extends (env : Env) (gate uf : Bool) (mr mAtt : Nat) :
    ∀ (fuel rc : Nat) (cond : String) (calls : Nat),
    ∃ t, (runLoop env gate uf mr mAtt fuel rc cond calls).condition = cond ++ t := by
  intro fuel
  induction fuel with
  | zero => intro rc cond calls; exact ⟨"", by simp [runLoop]⟩
  | succ fuel ih =>
    intro rc cond calls
    simp only [runLoop]
    split_ifs <;>
      first
      | exact cond_extend (ih _ _ _)
      | exact ⟨"", by simp⟩

/-- With the gate enabled, every exit of the loop carries the syntax verdict
of the sample it returns. -/
theorem runLoop_last_validation (env : Env) (uf : Bool) (mr mAtt : Nat) :
    ∀ (fuel rc : Nat) (cond : String) (calls : Nat),
    fuel + rc = mr + 1 → rc ≤ mr →
    (runLoop env true uf mr mAtt fuel rc cond calls).last_validation =
      some (env.syn
        (runLoop env true uf mr mAtt fuel rc cond calls).sample.generated_code) := by
  intro fuel
  induction fuel with
  | zero => intro rc cond calls h1 h2; omega
  | succ fuel ih =>
    intro rc cond calls h1 h2
    simp only [runLoop]
    split_ifs <;>
      first
      | exact ih _ _ _ (by omega) (by omega)
      | rfl

/-- Model of `generate_patch` reduced to its components once the input checks pass. -/
theorem generatePatch_eq (env : Env) (gate uf : Bool) (mr mAtt : Nat)
    (plan : RefactorPlan) (code : String)
    (hread : env.readFile plan.file_path = some code)
    (hne : plan.edit_targets.isEmpty = false)
    (hmask : (env.maskf code plan.edit_targets plan.language).2.isEmpty = false) :
    generatePatch env gate uf mr mAtt plan =
      Except.ok
        ({ file_path := plan.file_path
           original_code := code
           generated_code := (sampleAfter gate
             (runLoop env gate uf mr mAtt (mr + 1) 0 plan.condition 0)).generated_code
           unified_diff := env.mkDiff code (sampleAfter gate
             (runLoop env gate uf mr mAtt (mr + 1) 0 plan.condition 0)).generated_code
           masked_spans := (env.maskf code plan.edit_targets plan.language).2
           is_valid_syntax := Sample.is_valid_syntax (sampleAfter gate
             (runLoop env gate uf mr mAtt (mr + 1) 0 plan.condition 0))
           validation_errors := (sampleAfter gate
             (runLoop env gate uf mr mAtt (mr + 1) 0 plan.condition 0)).validation_errors },
         { plan with condition :=
             (runLoop env gate uf mr mAtt (mr + 1) 0 plan.condition 0).condition },
         (runLoop env gate uf mr mAtt (mr + 1) 0 plan.condition 0).calls) := by
  unfold generatePatch
  rw [hread]
  simp only [hne, hmask, Bool.false_eq_true, if_false]

/-- Extracting the generation count from a successful `generate_patch`. -/
theorem generatePatch_calls {env : Env} {gate uf : Bool} {mr mAtt : Nat}
    {plan : RefactorPlan} {n : Nat}
    (h : (generatePatch env gate uf mr mAtt plan).map (fun x => x.2.2) = Except.ok n) :
    n = (runLoop env gate uf mr mAtt (mr + 1) 0 plan.condition 0).calls := by
  unfold generatePatch at h
  cases hr : env.readFile plan.file_path with
  | none => rw [hr] at h; simp [Except.map] at h
  | some code =>
    rw [hr] at h
    dsimp only [] at h
    by_cases h1 : plan.edit_targets.isEmpty = true
    · rw [if_pos h1] at h
      simp [Except.map] at h
    · rw [if_neg h1] at h
      by_cases h2 : (env.maskf code plan.edit_targets plan.language).2.isEmpty = true
      · rw [if_pos h2] at h
        simp [Except.map] at h
      · rw [if_neg h2] at h
        simp only [Except.map, Except.ok.injEq] at h
        exact h.symm

theorem sampleAfter_some {r : LoopResult} {v : ValidationResult}
    (h : r.last_validation = some v) :
    sampleAfter true r =
      { r.sample with
          is_valid_syntax := v.is_valid,
          validation_errors := v.errors.map fmtSynErr } := by
  unfold sampleAfter
  rw [h]

/-! ### Concrete environments used as claim inputs -/

def samplePlan : RefactorPlan :=
  { file_path := "app.py", edit_targets := ["f"], intent := "refactor",
    condition := "improve f", language := "python", priority := 1 }

def dummySpan : MaskedSpan := { start_byte := 0, end_byte := 1 }

/-- Every candidate passes syntax but fails the semantic stage. -/
def c3CounterEnv : Env :=
  { backbone := fun _ => { generated_code := "cand" }
    syn := fun _ => { is_valid := true }
    sem := fun _ =>
      { is_valid := false,
        errors := [{ line := 3, column := 0, message := "undefined name",
                     severity := IssueSeverity.error }],
        checker_used := "pyright" }
    mkDiff := fun o g => if o = g then "" else "--- a/app.py\n+++ b/app.py"
    readFile := fun _ => some "original source"
    maskf := fun code _ _ => (code, [dummySpan]) }

/-- Every candidate fails the syntax stage. -/
def c3SynFailEnv : Env :=
  { backbone := fun _ => { generated_code := "cand" }
    syn := fun _ =>
      { is_valid := false,
        errors := [{ line := 1, message := "invalid syntax" }] }
    sem := fun _ => { is_valid := true }
    mkDiff := fun o g => if o = g then "" else "DIFF"
    readFile := fun _ => some "orig"
    maskf := fun code _ _ => (code, [dummySpan]) }

/-! ### C3 — exhausted retries -/

/-- C3 (counterexample): a request whose every attempt is rejected by the
semantic stage until the retry budget is exhausted yields a Patch with
`can_apply = true`, a non-empty unified diff, and no recorded validation
errors — not the `applicable = false` / empty-diff / diagnostics-recorded
Patch the claim describes. -/
theorem c3_counterexample :
    (generatePatch c3CounterEnv true false 1 3 samplePlan).map
      (fun x => (x.1.can_apply, x.1.unified_diff, x.1.validation_errors)) =
      Except.ok (true, "--- a/app.py\n+++ b/app.py", ([] : List String)) ∧
    ("--- a/app.py\n+++ b/app.py" : String) ≠ "" :=
  ⟨rfl, by decide⟩

/-- C3 (amended): on exhausted retries the emitted Patch's diff is the
ordinary diff between the original and the last candidate (never emptied),
and only the *syntactic* verdict is recorded: if the final rejection was
syntactic, `applicable = false` with the final syntax diagnostics in
`validation_errors`; if every rejection was semantic, the Patch records no
errors and `applicable = true`.  `applicable` equals
`syntax_valid AND no recorded syntactic errors`. -/
theorem c3_exhausted_retries (env : Env) (uf : Bool) (mr mAtt : Nat)
    (plan : RefactorPlan) (code : String)
    (hread : env.readFile plan.file_path = some code)
    (hne : plan.edit_targets.isEmpty = false)
    (hmask : (env.maskf code plan.edit_targets plan.language).2.isEmpty = false) :
    ((∀ s, (env.syn s).is_valid = false) →
      ∃ patch rest,
        generatePatch env true uf mr mAtt plan = Except.ok (patch, rest) ∧
        GeneratedPatch.is_valid_syntax patch = false ∧
        patch.can_apply = false ∧
        patch.validation_errors = (env.syn patch.generated_code).errors.map fmtSynErr ∧
        patch.unified_diff = env.mkDiff code patch.generated_code) ∧
    ((∀ s, (env.syn s).is_valid = true) → (∀ s, (env.syn s).errors = []) →
     (∀ s, (env.sem s).is_valid = false) →
      ∃ patch rest,
        generatePatch env true uf mr mAtt plan = Except.ok (patch, rest) ∧
        GeneratedPatch.is_valid_syntax patch = true ∧
        patch.validation_errors = [] ∧
        patch.can_apply = true ∧
        patch.unified_diff = env.mkDiff code patch.generated_code) := by
  have heq := generatePatch_eq env true uf mr mAtt plan code hread hne hmask
  have hlv := runLoop_last_validation env uf mr mAtt (mr + 1) 0 plan.condition 0
    (by omega) (by omega)
  have hsa := sampleAfter_some hlv
  constructor
  · intro hsyn
    refine ⟨_, _, heq, ?_, ?_, ?_, ?_⟩
    · simp [hsa, hsyn]
    · simp [GeneratedPatch.can_apply, hsa, hsyn]
    · simp [hsa]
    · simp [hsa]
  · intro hsyn herr _
    refine ⟨_, _, heq, ?_, ?_, ?_, ?_⟩
    · simp [hsa, hsyn]
    · simp [hsa, herr]
    · simp [GeneratedPatch.can_apply, hsa, hsyn, herr]
    · simp [hsa]

/-- Witness for the amended C3 theorem: one run exhausted by syntactic
rejections, one exhausted by semantic rejections. -/
theorem c3_exhausted_retries_witness :
    (∃ patch rest,
        generatePatch c3SynFailEnv true false 2 3 samplePlan = Except.ok (patch, rest) ∧
        GeneratedPatch.is_valid_syntax patch = false ∧ patch.can_apply = false ∧
        patch.validation_errors =
          (c3SynFailEnv.syn patch.generated_code).errors.map fmtSynErr ∧
        patch.unified_diff = c3SynFailEnv.mkDiff "orig" patch.generated_code) ∧
    (∃ patch rest,
        generatePatch c3CounterEnv true false 2 3 samplePlan = Except.ok (patch, rest) ∧
        GeneratedPatch.is_valid_syntax patch = true ∧ patch.validation_errors = [] ∧
        patch.can_apply = true ∧
        patch.unified_diff = c3CounterEnv.mkDiff "original source" patch.generated_code) :=
  ⟨(c3_exhausted_retries c3SynFailEnv false 2 3 samplePlan "orig" rfl rfl rfl).1
      (fun _ => rfl),
   (c3_exhausted_retries c3CounterEnv false 2 3 samplePlan "original source" rfl rfl rfl).2
      (fun _ => rfl) (fun _ => rfl) (fun _ => rfl)⟩

/-! ### C5 — attempt bound -/

/-- Backbone always emits syntactically invalid samples, so the
fallback-enabled path burns through all its internal attempts. -/
def c5CounterEnv : Env :=
  { backbone := fun _ => { generated_code := "cand", is_valid_syntax := false }
    syn := fun _ =>
      { is_valid := false,
        errors := [{ line := 1, message := "bad" }] }
    sem := fun _ => { is_valid := true }
    mkDiff := fun _ _ => "DIFF"
    readFile := fun _ => some "orig"
    maskf := fun code _ _ => (code, [dummySpan]) }

/-- C5 (counterexample): with `max_retries = 0` (claim: exactly one backbone
invocation) and the fallback path enabled, a single request performs 4
backbone generations (`max_validation_attempts = 3` denoising passes plus
the fallback completion). -/
theorem c5_counterexample :
    (generatePatch c5CounterEnv true true 0 3 samplePlan).map (fun x => x.2.2)
      = Except.ok 4 ∧ ¬ (4 ≤ 0 + 1) :=
  ⟨rfl, by decide⟩

/-- C5 (amended): with the fallback disabled, at most `max_retries + 1`
backbone generations occur per request, and a bound of 0 means exactly one;
with the fallback enabled each of the at most `max_retries + 1` driver
attempts performs up to `max_validation_attempts` denoising generations plus
one fallback generation, so the total is bounded by
`(max_retries + 1) * (max_validation_attempts + 1)`. -/
theorem c5_attempt_bound (env : Env) (gate : Bool) (mr mAtt : Nat)
    (plan : RefactorPlan) (n : Nat) :
    ((generatePatch env gate false mr mAtt plan).map (fun x => x.2.2) = Except.ok n →
      n ≤ mr + 1 ∧ (mr = 0 → n = 1)) ∧
    ((generatePatch env gate true mr mAtt plan).map (fun x => x.2.2) = Except.ok n →
      n ≤ (mr + 1) * (mAtt + 1)) := by
  constructor
  · intro h
    have hn := generatePatch_calls h
    constructor
    · have := runLoop_calls_nofallback env gate mr mAtt (mr + 1) 0 plan.condition 0
      omega
    · intro h0
      subst h0
      rw [hn]
      exact runLoop_calls_singleshot env gate mAtt 0 plan.condition 0
  · intro h
    have hn := generatePatch_calls h
    have := runLoop_calls_fallback env gate mr mAtt (mr + 1) 0 plan.condition 0
    omega

/-- Witness for the amended C5 bound at concrete runs. -/
theorem c5_attempt_bound_witness :
    (1 ≤ 0 + 1 ∧ (0 = 0 → 1 = 1)) ∧ 4 ≤ (0 + 1) * (3 + 1) :=
  ⟨(c5_attempt_bound c5CounterEnv true 0 3 samplePlan 1).1 rfl,
   (c5_attempt_bound c5CounterEnv true 0 3 samplePlan 4).2 rfl⟩

/-! ### C6 — missing targets -/

/-- The mask step finds none of the requested names. -/
def c6CounterEnv : Env :=
  { backbone := fun _ => { generated_code := "cand" }
    syn := fun _ => { is_valid := true }
    sem := fun _ => { is_valid := true }
    mkDiff := fun _ _ => "DIFF"
    readFile := fun _ => some "orig"
    maskf := fun code _ _ => (code, []) }

/-- C6 (counterexample): a single `generate_patch` call whose targets match
nothing raises `ValueError` — the caller receives a thrown exception, not a
hard-error Patch. -/
theorem c6_counterexample :
    generatePatch c6CounterEnv true true 3 3 samplePlan =
      Except.error ("Could not find any of " ++ toString samplePlan.edit_targets ++
        " in " ++ samplePlan.file_path) := rfl

/-- C6 (amended): when no target matches, a direct `generate_patch` call
raises `ValueError`; only inside `generate_batch` is the exception caught
and converted into an error Patch in that plan's slot, with
`applicable = false`, empty diff, invalid-syntax flag, and the error message
as its single validation error. -/
theorem c6_missing_targets (env : Env) (gate uf : Bool) (mr mAtt : Nat)
    (plan : RefactorPlan) (code : String)
    (hread : env.readFile plan.file_path = some code)
    (hne : plan.edit_targets.isEmpty = false)
    (hmask : (env.maskf code plan.edit_targets plan.language).2 = []) :
    generatePatch env gate uf mr mAtt plan =
      Except.error ("Could not find any of " ++ toString plan.edit_targets ++
        " in " ++ plan.file_path) ∧
    generateBatch env gate uf mr mAtt [plan] =
      [createErrorPatch plan ("Could not find any of " ++ toString plan.edit_targets ++
        " in " ++ plan.file_path)] ∧
    (∀ msg, (createErrorPatch plan msg).can_apply = false ∧
      (createErrorPatch plan msg).unified_diff = "" ∧
      GeneratedPatch.is_valid_syntax (createErrorPatch plan msg) = false ∧
      (createErrorPatch plan msg).validation_errors = [msg]) := by
  have herr : generatePatch env gate uf mr mAtt plan =
      Except.error ("Could not find any of " ++ toString plan.edit_targets ++
        " in " ++ plan.file_path) := by
    unfold generatePatch
    rw [hread]
    simp only [hne, Bool.false_eq_true, if_false]
    rw [if_pos (by simp [hmask])]
  refine ⟨herr, ?_, ?_⟩
  · unfold generateBatch
    simp [List.insertionSort, List.orderedInsert, herr]
  · intro msg
    exact ⟨rfl, rfl, rfl, rfl⟩

/-- Witness for the amended C6 behaviour at a concrete environment. -/
theorem c6_missing_targets_witness :
    generatePatch c6CounterEnv false false 2 3 samplePlan =
      Except.error ("Could not find any of " ++ toString samplePlan.edit_targets ++
        " in " ++ samplePlan.file_path) ∧
    generateBatch c6CounterEnv false false 2 3 [samplePlan] =
      [createErrorPatch samplePlan
        ("Could not find any of " ++ toString samplePlan.edit_targets ++
          " in " ++ samplePlan.file_path)] ∧
    (∀ msg, (createErrorPatch samplePlan msg).can_apply = false ∧
      (createErrorPatch samplePlan msg).unified_diff = "" ∧
      GeneratedPatch.is_valid_syntax (createErrorPatch samplePlan msg) = false ∧
      (createErrorPatch samplePlan msg).validation_errors = [msg]) :=
  c6_missing_targets c6CounterEnv false false 2 3 samplePlan "orig" rfl rfl rfl

/-! ### C10 — the caller's plan is mutated on retry -/

/-- The sample and successor generation counter produced by the attempt of
the loop body that starts at generation counter `calls` (the `gen` value of
one iteration of `runLoop`). -/
def attemptGen (env : Env) (uf : Bool) (mAtt : Nat) (calls : Nat) : Sample × Nat :=
  if uf then genWithFallback env.backbone mAtt calls else (env.backbone calls, calls + 1)

/-- The diagnostic suffix the loop appends for a rejected sample `s`: the
syntactic one when the syntax check fails, else — the semantic check having
failed — the semantic one.  Mirrors the two `enhanced_condition` sites of
`generate_patch` (the semantic check only runs when syntax passed). -/
def retrySuffix (env : Env) (s : Sample) : String :=
  if (env.syn s.generated_code).is_valid = false
  then syntaxRetrySuffix (env.syn s.generated_code).error_summary
  else semanticRetrySuffix (env.sem s.generated_code).error_summary

theorem syntaxRetrySuffix_length_pos (s : String) :
    0 < (syntaxRetrySuffix s).length := by
  rw [syntaxRetrySuffix, String.length_append]
  have : 0 <
      ("\n\nIMPORTANT: Previous attempt had syntax errors. Fix these issues: "
        : String).length := by decide
  omega

theorem semanticRetrySuffix_length_pos (s : String) :
    0 < (semanticRetrySuffix s).length := by
  rw [semanticRetrySuffix, String.length_append]
  have : 0 <
      ("\n\nIMPORTANT: Previous attempt had semantic errors. Fix these issues: "
        : String).length := by decide
  omega

theorem retrySuffix_length_pos (env : Env) (s : Sample) :
    0 < (retrySuffix env s).length := by
  unfold retrySuffix
  split
  · exact syntaxRetrySuffix_length_pos _
  · exact semanticRetrySuffix_length_pos _

/-- One failing attempt with retries remaining, at an arbitrary loop state:
whether the rejection is syntactic or semantic, the loop re-enters with the
condition overwritten by the diagnostic-augmented condition. -/
theorem runLoop_retry_step (env : Env) (uf : Bool) (mr mAtt : Nat)
    (fuel rc : Nat) (cond : String) (calls : Nat)
    (hbudget : rc + 1 ≤ mr)
    (hfail :
      (env.syn (attemptGen env uf mAtt calls).1.generated_code).is_valid = false ∨
      ((env.syn (attemptGen env uf mAtt calls).1.generated_code).is_valid = true ∧
       (env.sem (attemptGen env uf mAtt calls).1.generated_code).is_valid = false)) :
    runLoop env true uf mr mAtt (fuel + 1) rc cond calls =
      runLoop env true uf mr mAtt fuel (rc + 1)
        (cond ++ retrySuffix env (attemptGen env uf mAtt calls).1)
        (attemptGen env uf mAtt calls).2 := by
  simp only [runLoop]
  rw [show (if uf = true then genWithFallback env.backbone mAtt calls
      else (env.backbone calls, calls + 1)) = attemptGen env uf mAtt calls from rfl]
  unfold retrySuffix
  rcases hfail with hsf | ⟨hsv, hmf⟩
  · simp [hsf, hbudget]
  · simp [hsv, hmf, hbudget]

/-- C10: whenever a validation attempt inside `generate_patch` fails with
retries remaining — syntactic or semantic, at any position in the run — the
condition of the caller's plan object is overwritten in place with the
diagnostic-augmented condition; the mutation persists in the returned plan,
whose every other field is unchanged.  `(fuel + 1, rc, cond', calls)` is the
loop state performing the failing attempt: `hreach` says the run reaches it
(the loop is tail-recursive, so the whole run equals the run from that
state), `hext` that its current condition extends the caller's original
one, `hbudget` that retries remain, and `hfail` that the attempt is
rejected syntactically, or passes syntax and is rejected semantically. -/
theorem c10_plan_mutation (env : Env) (uf : Bool) (mr mAtt : Nat)
    (plan : RefactorPlan) (code : String)
    (hread : env.readFile plan.file_path = some code)
    (hne : plan.edit_targets.isEmpty = false)
    (hmask : (env.maskf code plan.edit_targets plan.language).2.isEmpty = false)
    (fuel rc : Nat) (cond' : String) (calls : Nat)
    (hreach : runLoop env true uf mr mAtt (mr + 1) 0 plan.condition 0 =
      runLoop env true uf mr mAtt (fuel + 1) rc cond' calls)
    (hext : ∃ u, cond' = plan.condition ++ u)
    (hbudget : rc + 1 ≤ mr)
    (hfail :
      (env.syn (attemptGen env uf mAtt calls).1.generated_code).is_valid = false ∨
      ((env.syn (attemptGen env uf mAtt calls).1.generated_code).is_valid = true ∧
       (env.sem (attemptGen env uf mAtt calls).1.generated_code).is_valid = false)) :
    ∃ patch rest t,
      generatePatch env true uf mr mAtt plan = Except.ok (patch, rest) ∧
      rest.1.condition =
        (cond' ++ retrySuffix env (attemptGen env uf mAtt calls).1) ++ t ∧
      rest.1.condition ≠ plan.condition ∧
      rest.1.file_path = plan.file_path ∧
      rest.1.edit_targets = plan.edit_targets ∧
      rest.1.intent = plan.intent ∧
      rest.1.language = plan.language ∧
      rest.1.priority = plan.priority := by
  have heq := generatePatch_eq env true uf mr mAtt plan code hread hne hmask
  have hstep := runLoop_retry_step env uf mr mAtt fuel rc cond' calls hbudget hfail
  obtain ⟨t, ht⟩ := runLoop_condition_extends env true uf mr mAtt fuel (rc + 1)
    (cond' ++ retrySuffix env (attemptGen env uf mAtt calls).1)
    (attemptGen env uf mAtt calls).2
  have hcondfinal :
      (runLoop env true uf mr mAtt (mr + 1) 0 plan.condition 0).condition =
      (cond' ++ retrySuffix env (attemptGen env uf mAtt calls).1) ++ t := by
    rw [hreach, hstep, ht]
  obtain ⟨u, hu⟩ := hext
  refine ⟨_, _, t, heq, ?_, ?_, rfl, rfl, rfl, rfl, rfl⟩
  · exact hcondfinal
  · rw [hcondfinal, hu]
    intro hcontra
    have hlen := congrArg String.length hcontra
    rw [String.length_append, String.length_append, String.length_append] at hlen
    have := retrySuffix_length_pos env (attemptGen env uf mAtt calls).1
    omega

/-- Witness for the plan-mutation theorem: a *second*-attempt syntactic
failure (the run's first attempt already failed and augmented the
condition), and a first-attempt *semantic* failure. -/
theorem c10_plan_mutation_witness :
    (∃ patch rest t,
      generatePatch c3SynFailEnv true false 2 3 samplePlan = Except.ok (patch, rest) ∧
      rest.1.condition =
        ((samplePlan.condition ++
            retrySuffix c3SynFailEnv (attemptGen c3SynFailEnv false 3 0).1) ++
          retrySuffix c3SynFailEnv (attemptGen c3SynFailEnv false 3 1).1) ++ t ∧
      rest.1.condition ≠ samplePlan.condition ∧
      rest.1.file_path = samplePlan.file_path ∧
      rest.1.edit_targets = samplePlan.edit_targets ∧
      rest.1.intent = samplePlan.intent ∧
      rest.1.language = samplePlan.language ∧
      rest.1.priority = samplePlan.priority) ∧
    (∃ patch rest t,
      generatePatch c3CounterEnv true false 2 3 samplePlan = Except.ok (patch, rest) ∧
      rest.1.condition =
        (samplePlan.condition ++
          retrySuffix c3CounterEnv (attemptGen c3CounterEnv false 3 0).1) ++ t ∧
      rest.1.condition ≠ samplePlan.condition ∧
      rest.1.file_path = samplePlan.file_path ∧
      rest.1.edit_targets = samplePlan.edit_targets ∧
      rest.1.intent = samplePlan.intent ∧
      rest.1.language = samplePlan.language ∧
      rest.1.priority = samplePlan.priority) :=
  ⟨c10_plan_mutation c3SynFailEnv false 2 3 samplePlan "orig" rfl rfl rfl
      1 1 (samplePlan.condition ++
        retrySuffix c3SynFailEnv (attemptGen c3SynFailEnv false 3 0).1) 1
      rfl ⟨retrySuffix c3SynFailEnv (attemptGen c3SynFailEnv false 3 0).1, rfl⟩
      (by omega) (Or.inl rfl),
   c10_plan_mutation c3CounterEnv false 2 3 samplePlan "original source" rfl rfl rfl
      2 0 samplePlan.condition 0
      rfl ⟨"", rfl⟩ (by omega) (Or.inr ⟨rfl, rfl⟩)⟩

/-! ### C4 — batch ordering -/

/-- Batch environment: the file content of each plan is its path, so the
returned patches identify the plan that produced them. -/
def c4Env : Env :=
  { backbone := fun _ => { generated_code := "cand" }
    syn := fun _ => { is_valid := true }
    sem := fun _ => { is_valid := true }
    mkDiff := fun o g => if o = g then "" else "DIFF"
    readFile := fun p => some p
    maskf := fun code _ _ => (code, [dummySpan]) }

def c4Plan1 : RefactorPlan :=
  { file_path := "f1", edit_targets := ["a"], intent := "i1",
    condition := "c1", priority := 1 }

def c4Plan5 : RefactorPlan :=
  { file_path := "f2", edit_targets := ["b"], intent := "i2",
    condition := "c2", priority := 5 }

def c4Plan3 : RefactorPlan :=
  { file_path := "f3", edit_targets := ["c"], intent := "i3",
    condition := "c3", priority := 3 }

/-- C4: `generate_batch` on plans with priorities `[1, 5, 3]` returns the
patches in descending-priority processing order `[5, 3, 1]` — not in the
caller's input order as the claim (and the function's own docstring)
state. -/
theorem c4_batch_priority_order :
    (generateBatch c4Env true false 3 3 [c4Plan1, c4Plan5, c4Plan3]).map
      GeneratedPatch.file_path = ["f2", "f3", "f1"] ∧
    (["f2", "f3", "f1"] : List String) ≠ ["f1", "f2", "f3"] :=
  ⟨rfl, by decide⟩

/-! ## The semantic analyzer's checker subprocesses

`SemanticAnalyzer._run_pyright` / `_run_mypy` with the subprocess call, the
temporary file, and the output parsing abstracted as an outcome value. -/

/-- Result of one type-checker subprocess invocation. -/
inductive SubprocResult (α : Type) where
  | completed (out : α)
  | timeout
  | failed (msg : String)
  deriving Repr, DecidableEq

/-- One pyright diagnostic as decoded from `--outputjson`
(`generalDiagnostics`): 0-based start position, message, severity string. -/
structure PyrightDiag where
  line : Nat
  character : Nat
  message : String
  severity : String
  rule : String := ""
  code : String := ""
  deriving Repr, DecidableEq

/-- One mypy output line matched by `:(\d+):\s+(error|warning|note):\s+(.+)`. -/
structure MypyLine where
  line : Nat
  severity : String
  message : String
  deriving Repr, DecidableEq

/-- Model of `SemanticAnalyzer._run_pyright`. -/
def runPyright (outcome : SubprocResult (List PyrightDiag)) : SemanticResult :=
  match outcome with
  | .completed diags =>
    let issues := diags.map fun d =>
      ({ line := d.line + 1, column := d.character, message := d.message,
         severity :=
           if d.severity = "error" then IssueSeverity.error else IssueSeverity.warning,
         rule := d.rule, code := d.code } : SemanticIssue)
    let errors := issues.filter fun i => i.severity = IssueSeverity.error
    let warnings := issues.filter fun i => ¬ i.severity = IssueSeverity.error
    { is_valid := errors.length == 0, errors := errors, warnings := warnings,
      checker_used := "pyright" }
  | .timeout =>
    { is_valid := false,
      errors := [{ line := 0, column := 0, message := "Pyright analysis timed out",
                   severity := IssueSeverity.error }],
      checker_used := "pyright" }
  | .failed m =>
    { is_valid := false,
      errors := [{ line := 0, column := 0, message := "Pyright analysis failed: " ++ m,
                   severity := IssueSeverity.error }],
      checker_used := "pyright" }

/-- Model of `SemanticAnalyzer._run_mypy`. -/
def runMypy (outcome : SubprocResult (List MypyLine)) : SemanticResult :=
  match outcome with
  | .completed lines =>
    let issues := (lines.filter fun l => ¬ l.severity = "note").map fun l =>
      ({ line := l.line, column := 0, message := l.message,
         severity :=
           if l.severity = "error" then IssueSeverity.error
           else IssueSeverity.warning } : SemanticIssue)
    let errors := issues.filter fun i => i.severity = IssueSeverity.error
    let warnings := issues.filter fun i => ¬ i.severity = IssueSeverity.error
    { is_valid := errors.length == 0, errors := errors, warnings := warnings,
      checker_used := "mypy" }
  | .timeout =>
    { is_valid := false,
      errors := [{ line := 0, column := 0, message := "Mypy analysis timed out",
                   severity := IssueSeverity.error }],
      checker_used := "mypy" }
  | .failed m =>
    { is_valid := false,
      errors := [{ line := 0, column := 0, message := "Mypy analysis failed: " ++ m,
                   severity := IssueSeverity.error }],
      checker_used := "mypy" }

/-- Model of `SemanticAnalyzer.analyze` dispatch: non-Python languages and
missing-checker configurations are conditionally accepted with
`checker_used = "none"`; otherwise pyright is preferred, falling back to
mypy. -/
def analyze (prefer_pyright pyright_available mypy_available : Bool)
    (language : String) (po : SubprocResult (List PyrightDiag))
    (mo : SubprocResult (List MypyLine)) : SemanticResult :=
  if language ≠ "python" then
    { is_valid := true, checker_used := "none" }
  else if ¬ pyright_available ∧ ¬ mypy_available then
    { is_valid := true, checker_used := "none" }
  else if prefer_pyright ∧ pyright_available then
    runPyright po
  else if mypy_available then
    runMypy mo
  else
    runPyright po

/-- C7 (counterexample): a pyright subprocess timeout produces a *failing*
semantic verdict (`is_valid = false`) carrying an error diagnostic — not a
tooling-unavailable conditional accept; fed back to the orchestrator it
counts as a semantic rejection. -/
theorem c7_counterexample :
    (runPyright SubprocResult.timeout).is_valid = false ∧
    (runPyright SubprocResult.timeout).errors ≠ [] ∧
    (runPyright SubprocResult.timeout).checker_used = "pyright" := by
  refine ⟨rfl, ?_, rfl⟩
  decide

/-- C7 (amended): a type-checker timeout yields a failing verdict with the
single diagnostic "`<checker>` analysis timed out" (severity error), which
counts as a semantic rejection; the conditional-accept tooling-unavailable
verdict (`is_valid = true`, `checker_used = "none"`) arises only when no
type-checker is installed or the language is not Python. -/
theorem c7_timeout_fails (pp pa ma : Bool) (lang : String)
    (po : SubprocResult (List PyrightDiag)) (mo : SubprocResult (List MypyLine)) :
    (runPyright SubprocResult.timeout).is_valid = false ∧
    (runPyright SubprocResult.timeout).errors =
      [{ line := 0, column := 0, message := "Pyright analysis timed out",
         severity := IssueSeverity.error }] ∧
    (runMypy SubprocResult.timeout).is_valid = false ∧
    (runMypy SubprocResult.timeout).errors =
      [{ line := 0, column := 0, message := "Mypy analysis timed out",
         severity := IssueSeverity.error }] ∧
    analyze pp false false "python" po mo =
      { is_valid := true, checker_used := "none" } ∧
    (lang ≠ "python" →
      analyze pp pa ma lang po mo = { is_valid := true, checker_used := "none" }) := by
  refine ⟨rfl, rfl, rfl, rfl, ?_, ?_⟩
  · unfold analyze
    rw [if_neg (by simp), if_pos (by simp)]
  · intro hlang
    unfold analyze
    rw [if_pos hlang]

/-- Witness for the amended C7 theorem at concrete inputs. -/
theorem c7_timeout_fails_witness :
    (runPyright SubprocResult.timeout).is_valid = false ∧
    (runPyright SubprocResult.timeout).errors =
      [{ line := 0, column := 0, message := "Pyright analysis timed out",
         severity := IssueSeverity.error }] ∧
    (runMypy SubprocResult.timeout).is_valid = false ∧
    (runMypy SubprocResult.timeout).errors =
      [{ line := 0, column := 0, message := "Mypy analysis timed out",
         severity := IssueSeverity.error }] ∧
    analyze true false false "python" (SubprocResult.completed [])
      (SubprocResult.completed []) = { is_valid := true, checker_used := "none" } ∧
    analyze true true true "typescript" (SubprocResult.completed [])
      (SubprocResult.completed []) = { is_valid := true, checker_used := "none" } := by
  have h := c7_timeout_fails true true true "typescript"
    (SubprocResult.completed []) (SubprocResult.completed [])
  have h2 := c7_timeout_fails true false false "python"
    (SubprocResult.completed []) (SubprocResult.completed [])
  exact ⟨h.1, h.2.1, h.2.2.1, h.2.2.2.1, h2.2.2.2.2.1,
    h.2.2.2.2.2 (by decide)⟩

/-! ## Ledger persistence

`ProvenanceMetadata.save` / `ProvenanceLogger.save`, modelled as the ordered
trace of filesystem operations they perform. -/

/-- Filesystem operations, in program order. -/
inductive FsOp where
  | mkdirParents (dir : String)
  | writeText (path content : String)
  | fsyncFile (path : String)
  | renameFile (src dst : String)
  deriving Repr, DecidableEq

/-- Model of `pathlib.Path.parent` (external library), reduced to the textual parent:
everything before the final slash. -/
def parentDir (path : String) : String :=
  String.intercalate "/" (path.splitOn "/").dropLast

/-- Model of `ProvenanceMetadata.save`:
`output_path.parent.mkdir(parents=True, exist_ok=True)` followed by a single
direct `output_path.write_text(self.to_json(), encoding="utf-8")`. -/
def metadataSaveTrace (output_path json_text : String) : List FsOp :=
  [FsOp.mkdirParents (parentDir output_path),
   FsOp.writeText output_path json_text]

/-- Model of `ProvenanceLogger.save` delegates to `ProvenanceMetadata.save`. -/
def loggerSaveTrace (output_path json_text : String) : List FsOp :=
  metadataSaveTrace output_path json_text

/-- The write pattern the claim describes: the JSON goes to `<path>.tmp`,
which is fsynced and then renamed onto the destination; the destination is
never written directly. -/
def AtomicSavePattern (path json_text : String) (ops : List FsOp) : Prop :=
  FsOp.writeText (path ++ ".tmp") json_text ∈ ops ∧
  FsOp.fsyncFile (path ++ ".tmp") ∈ ops ∧
  FsOp.renameFile (path ++ ".tmp") path ∈ ops ∧
  FsOp.writeText path json_text ∉ ops

/-- C8 (counterexample): the ledger save of a concrete run writes the JSON
directly to the destination path; no `.tmp` write, fsync, or rename
occurs. -/
theorem c8_counterexample :
    ¬ AtomicSavePattern "artifacts/artifact_metadata_run1.json" "\x7b\x7d"
      (metadataSaveTrace "artifacts/artifact_metadata_run1.json" "\x7b\x7d") := by
  intro h
  exact absurd h.1 (by decide)

/-- C8 (amended): every save — `ProvenanceMetadata.save` directly and
`ProvenanceLogger.save` through it — creates the parent directories and then
writes the JSON straight to the destination path in one `write_text` call;
it performs no temporary-file write, no fsync, and no rename, so the write
is not atomic and an interruption mid-write can leave the destination
partially written. -/
theorem c8_save_not_atomic (path json_text : String) :
    metadataSaveTrace path json_text =
      [FsOp.mkdirParents (parentDir path), FsOp.writeText path json_text] ∧
    loggerSaveTrace path json_text = metadataSaveTrace path json_text ∧
    (∀ src dst, FsOp.renameFile src dst ∉ metadataSaveTrace path json_text) ∧
    (∀ p, FsOp.fsyncFile p ∉ metadataSaveTrace path json_text) ∧
    FsOp.writeText path json_text ∈ metadataSaveTrace path json_text := by
  refine ⟨rfl, rfl, ?_, ?_, ?_⟩
  · intro src dst
    simp [metadataSaveTrace]
  · intro p
    simp [metadataSaveTrace]
  · simp [metadataSaveTrace]

/-- Witness instantiating the save-trace description at a concrete path. -/
theorem c8_save_not_atomic_witness :
    metadataSaveTrace "artifacts/artifact_metadata_run1.json" "\x7b\x7d" =
      [FsOp.mkdirParents (parentDir "artifacts/artifact_metadata_run1.json"),
       FsOp.writeText "artifacts/artifact_metadata_run1.json" "\x7b\x7d"] ∧
    FsOp.writeText "artifacts/artifact_metadata_run1.json" "\x7b\x7d" ∈
      metadataSaveTrace "artifacts/artifact_metadata_run1.json" "\x7b\x7d" :=
  ⟨(c8_save_not_atomic "artifacts/artifact_metadata_run1.json" "\x7b\x7d").1,
   (c8_save_not_atomic "artifacts/artifact_metadata_run1.json" "\x7b\x7d").2.2.2.2⟩

/-- Witness exercising both directions of the unmask length precondition. -/
theorem c9_unmask_length_witness :
    (∃ s, unmask ['a'] [] [] = Except.ok s) ∧
    (∃ e, unmask ['a'] [dummySpan] [] = Except.error e) :=
  ⟨(c9_unmask_length_precondition ['a'] [] []).2.mpr rfl,
   (c9_unmask_length_precondition ['a'] [dummySpan] []).1.mpr (by decide)⟩

end Ouroboros
